import Mathlib

set_option maxHeartbeats 2000000
set_option maxRecDepth 8000

namespace InternalBlueSpec

/-! Shallow embedding of the transport/ingestion core of internalblue
(`src/internalblue/hcicore.py` and `src/internalblue/macoscore.py`).
Bytes are modelled as `Nat` values below 256, files and packets as
`List Nat`, machine integers as `Nat`/`Int` with explicit reductions
where the source packs them. -/

/-! ## Binary record codec (struct.pack ">IIIIq" in HCICore._recvThreadFunc) -/

/-- Big-endian packing of a u32, as `struct.pack ">I"` does. -/
def p32be (n : Nat) : List Nat :=
  [n / 2 ^ 24 % 256, n / 2 ^ 16 % 256, n / 2 ^ 8 % 256, n % 256]

/-- Big-endian packing of a u64 into 8 bytes. -/
def p64be (n : Nat) : List Nat :=
  [n / 2 ^ 56 % 256, n / 2 ^ 48 % 256, n / 2 ^ 40 % 256, n / 2 ^ 32 % 256,
   n / 2 ^ 24 % 256, n / 2 ^ 16 % 256, n / 2 ^ 8 % 256, n % 256]

/-- Big-endian packing of an i64 (two's complement), as `struct.pack ">q"` does. -/
def p64be_int (t : Int) : List Nat :=
  p64be ((t % (2 ^ 64 : Int)).toNat)

/-- Round p/q (q positive) to the nearest integer, ties to even — the
rounding IEEE 754 binary64 applies to the significand. -/
def roundSig (p q : Nat) : Nat :=
  let n := p / q
  let r := p % q
  if 2 * r < q then n
  else if q < 2 * r then n + 1
  else if n % 2 = 0 then n else n + 1

/-- Floor of log2, with fuel for structural recursion. -/
def log2Aux : Nat → Nat → Nat
  | 0, _ => 0
  | fuel + 1, n => if 2 ≤ n then log2Aux fuel (n / 2) + 1 else 0

/-- Floor of log2 of a positive natural. -/
def nlog2 (n : Nat) : Nat :=
  log2Aux n n

/-- Floor of log2 of a/b for positive a, b: the binade the value lies in. -/
def floorLog2Quot (a b : Nat) : Int :=
  let e : Int := (nlog2 a : Int) - (nlog2 b : Int)
  if b * 2 ^ e.toNat ≤ a * 2 ^ (-e).toNat then e else e - 1

/-- IEEE 754 binary64 round-to-nearest-even of a/b (a, b positive, value in
the normal range), returned as a pair (M, E) whose value is M * 2^(E - 52)
with M the 53-bit significand. -/
def roundDoublePair (a b : Nat) : Nat × Int :=
  if a = 0 ∨ b = 0 then (0, 0)
  else
    let E := floorLog2Quot a b
    let s : Int := 52 - E
    (roundSig (a * 2 ^ s.toNat) (b * 2 ^ (-s).toNat), E)

/-- Floor of the (nonnegative) value M * 2^(E - 52) of a double pair. -/
def pairValFloor (p : Nat × Int) : Nat :=
  if 52 ≤ p.2 then p.1 * 2 ^ (p.2 - 52).toNat
  else p.1 / 2 ^ (52 - p.2).toNat

/-- Correctly rounded binary64 multiplication of a double pair by 1000 (the
exact product is rounded back to 53 significant bits). -/
def pairMul1000 (p : Nat × Int) : Nat × Int :=
  if 52 ≤ p.2 then roundDoublePair (p.1 * 1000 * 2 ^ (p.2 - 52).toNat) 1
  else roundDoublePair (p.1 * 1000) (2 ^ (52 - p.2).toNat)

/-- HCICore._btsnoop_pack_time. The timedelta sum is exact — the total is
us_since_2000 + 0x00E03AB44A676000 microseconds — but the source then
returns int(packed_time.total_seconds() * 1000 * 1000), where
timedelta.total_seconds() performs one float64 true division of the exact
microsecond count by 10^6. Modelled bit-exactly for values in the binary64
normal range: one round-to-nearest-even division, two correctly rounded
multiplications by 1000, and int()'s truncation toward zero (negative totals
mirror by the sign symmetry of IEEE rounding and truncation). -/
def btsnoop_pack_time (us_since_2000 : Int) : Int :=
  let total := us_since_2000 + 0x00E03AB44A676000
  let v2 := pairMul1000 (pairMul1000 (roundDoublePair total.natAbs (10 ^ 6)))
  if total < 0 then -(pairValFloor v2 : Int) else (pairValFloor v2 : Int)

/-- The 24-byte btsnoop record header built in HCICore._recvThreadFunc:
`struct.pack(">IIIIq", orig_len, inc_len, flags, drops, packed_time)`. -/
def btsnoop_record_hdr (orig inc fl dr : Nat) (ts : Int) : List Nat :=
  p32be orig ++ p32be inc ++ p32be fl ++ p32be dr ++ p64be_int ts

/-- One frame of the capture log: record header followed immediately by the
raw packet bytes (the two `btsnooplog_file.write` calls). -/
def btsnoop_frame (orig inc fl dr : Nat) (ts : Int) (payload : List Nat) : List Nat :=
  btsnoop_record_hdr orig inc fl dr ts ++ payload

/-- The frame HCICore._recvThreadFunc appends for chunk `record_data` captured
at `now_us` microseconds since 2000-01-01: orig_len and inc_len are both
`len(record_data)`, flags and drops are 0, time is packed with the epoch shift. -/
def hci_btsnoop_write (record_data : List Nat) (now_us : Int) : List Nat :=
  btsnoop_frame record_data.length record_data.length 0 0
    (btsnoop_pack_time now_us) record_data

/-! ## Capture-log file header (HCICore._writeBTSnoopHeader) -/

/-- The 16-byte btsnoop file header: `b"btsnoop\x00"` then big-endian
u32 version 1 and u32 datalink type 1002. -/
def btsnoop_hdr : List Nat :=
  [0x62, 0x74, 0x73, 0x6e, 0x6f, 0x6f, 0x70, 0x00] ++ p32be 1 ++ p32be 1002

/-- HCICore._writeBTSnoopHeader: append the identification header only when
logging is enabled and the file is currently empty (`tell() == 0`). -/
def writeBTSnoopHeader (write_btsnooplog : Bool) (file : List Nat) : List Nat :=
  if write_btsnooplog ∧ file.length = 0 then file ++ btsnoop_hdr else file

/-- Number of positions of `file` at which the 16-byte identification header
occurs. -/
def countHeaders (file : List Nat) : Nat :=
  (List.range file.length).countP (fun i => (file.drop i).take 16 == btsnoop_hdr)

/-! ## Flags decoding (HCICore.getHciDeviceList) -/

/-- Binary digits of `n`, least significant first, with fuel for structural
recursion (`bin(n)[2:][::-1]` as a list of booleans; empty for 0). -/
def bitsAux : Nat → Nat → List Bool
  | 0, _ => []
  | fuel + 1, n =>
    if n = 0 then [] else decide (n % 2 = 1) :: bitsAux fuel (n / 2)

/-- Binary digits of `n`, least significant bit first. -/
def bitsLSB (n : Nat) : List Bool :=
  bitsAux n n

/-- The fixed 10-entry ordered token table of getHciDeviceList. -/
def flagNames : List String :=
  ["UP", "INIT", "RUNNING", "PSCAN", "ISCAN", "AUTH", "ENCRYPT", "INQUIRY",
   "RAW", "RESET"]

/-- HCICore.getHciDeviceList flags decoding: "DOWN" for 0, else the names
paired with "1" digits when the reversed binary string is zipped against the
token table, joined by single spaces. -/
def dev_flags_str (flags : Nat) : String :=
  if flags = 0 then "DOWN"
  else
    String.intercalate " "
      (((bitsLSB flags).zip flagNames).filterMap
        (fun p => if p.1 then some p.2 else none))

/-- The spec's reading: the ordered subset of the 10-token table selected by
the set bits of the bitmap, low bit first. -/
def flagsTokens (flags : Nat) : List String :=
  (List.range 10).filterMap
    (fun i => if flags.testBit i then some (flagNames.getD i "") else none)

/-- The spec's flags text: "DOWN" iff the bitmap is 0, else the space-joined
selected subset of the token table. -/
def flags_text_spec (flags : Nat) : String :=
  if flags = 0 then "DOWN" else String.intercalate " " (flagsTokens flags)

/-! ## Send engine and response correlation (macOSCore) -/

/-- Modelled from the spec: `registerHciRecvQueue` lives in `core.py`
(the `InternalBlue` base class), which is not under `src/`; per the spec's
Dispatch Registry (section 4.5) registration appends a subscription to the
process-wide set. Queues are modelled by identity tokens. -/
def registerHciRecvQueue (reg : List Nat) (q : Nat) : List Nat :=
  reg ++ [q]

/-- Modelled from the spec: `unregisterHciRecvQueue` lives in `core.py`,
not under `src/`; per the spec's Dispatch Registry (section 4.5)
unregistration removes a subscription by queue identity. -/
def unregisterHciRecvQueue (reg : List Nat) (q : Nat) : List Nat :=
  reg.filter (fun x => x != q)

/-- One task processed by macOSCore._sendThreadFunc, restricted to its effect
on the dispatch registry and on the caller's waiting queue. `fresh` is the
identity of the ephemeral one-slot `recvQueue`; `hasQF` is the condition
`queue != None and filter_function != None` of the task; `arrival` is the
record payload delivered to the recvQueue within the 10s poll, `none` when no
matching record ever arrives (Queue.Empty). Returns the registry after the
task and what is put into the caller's queue (`none`: nothing is put, so the
caller's own timed `get` returns empty). -/
def sendThreadStep (reg : List Nat) (fresh : Nat) (hasQF : Bool)
    (arrival : Option (List Nat)) : List Nat × Option (List Nat) :=
  if hasQF then
    let reg1 := registerHciRecvQueue reg fresh
    match arrival with
    | none => (unregisterHciRecvQueue reg1 fresh, none)
    | some d => (unregisterHciRecvQueue reg1 fresh, some d)
  else (reg, none)

/-- macOSCore.sendH4 submits the task `(h4type, data, queue, None)` — its
filter_function is None, so `hasQF` is false for the send thread — and then
waits on its one-slot queue with the caller's timeout, returning `None` on
Queue.Empty. Result: registry after the task and the value sendH4 returns. -/
def sendH4 (reg : List Nat) (fresh : Nat) (arrival : Option (List Nat)) :
    List Nat × Option (List Nat) :=
  sendThreadStep reg fresh false arrival

/-! ## Records and fan-out (HCICore._recvThreadFunc, macOSCore._recvThreadFunc) -/

/-- The unit of distribution built by the receive loops: parsed packet plus
btsnoop metadata. The timestamp is in microseconds since 2000-01-01. -/
structure Record (α : Type) where
  packet : α
  orig_len : Nat
  inc_len : Nat
  flags : Nat
  drops : Nat
  timestamp : Int
deriving DecidableEq, Repr

/-- The record tuple HCICore._recvThreadFunc builds for a chunk `record_data`
captured at `now_us`: both lengths are the raw byte count, flags and drops 0.
`parse` stands for the external decoder `hci.parse_hci_packet`. -/
def hci_mkRecord {α : Type} (parse : List Nat → α) (record_data : List Nat)
    (now_us : Int) : Record α :=
  { packet := parse record_data
    orig_len := record_data.length
    inc_len := record_data.length
    flags := 0
    drops := 0
    timestamp := now_us }

/-- The record tuple macOSCore._recvThreadFunc builds:
`(hci.parse_hci_packet(record_data), 0, 0, 0, 0, 0)`. -/
def macos_mkRecord {α : Type} (parse : List Nat → α) (record_data : List Nat) :
    Record α :=
  { packet := parse record_data
    orig_len := 0
    inc_len := 0
    flags := 0
    drops := 0
    timestamp := 0 }

/-- A registered queue subscription: FIFO contents, capacity, optional filter. -/
structure QueueSub (α : Type) where
  buf : List (Record α)
  cap : Nat
  filt : Option (Record α → Bool)

/-- Non-blocking `queue.put(record, block=False)`: on a full queue the record
is dropped for this subscription (`except queue.Full` is only logged). -/
def tryPut {α : Type} (q : QueueSub α) (r : Record α) : QueueSub α :=
  if q.buf.length < q.cap then { q with buf := q.buf ++ [r] } else q

/-- HCICore fan-out to one queue subscription: enqueue only when the filter is
absent or accepts the record. -/
def fanoutQueueStep {α : Type} (r : Record α) (q : QueueSub α) : QueueSub α :=
  match q.filt with
  | none => tryPut q r
  | some f => if f r then tryPut q r else q

/-- HCICore fan-out of one record over all registered queue subscriptions. -/
def fanoutQueues {α : Type} (r : Record α) (subs : List (QueueSub α)) :
    List (QueueSub α) :=
  subs.map (fanoutQueueStep r)

/-- macOSCore fan-out to one queue subscription: the filter is never consulted
(the source enqueues unconditionally, with a TODO that filtering is broken). -/
def macos_fanoutQueueStep {α : Type} (r : Record α) (q : QueueSub α) : QueueSub α :=
  tryPut q r

/-- macOSCore fan-out of one record over all registered queue subscriptions. -/
def macos_fanoutQueues {α : Type} (r : Record α) (subs : List (QueueSub α)) :
    List (QueueSub α) :=
  subs.map (macos_fanoutQueueStep r)

/-- Run the registered callbacks in order, as the bare
`for callback in self.registeredHciCallbacks: callback(record)` does. A
callback returning `some e` models a raised exception: there is no handler, so
it aborts the iteration and propagates. Returns how many callbacks were
invoked and the propagated exception, if any. -/
def runCallbacks {α : Type} : List (Record α → Option String) → Record α →
    Nat × Option String
  | [], _ => (0, none)
  | c :: cs, r =>
    match c r with
    | some e => (1, some e)
    | none =>
      let p := runCallbacks cs r
      (p.1 + 1, p.2)

/-- One fan-out pass of HCICore._recvThreadFunc after a record is built: the
queue loop (which catches queue.Full) followed by the unprotected callback
loop. `none` means an exception escaped the loop body, terminating the
receive thread. -/
def hci_recvStep {α : Type} (subs : List (QueueSub α))
    (cbs : List (Record α → Option String)) (r : Record α) :
    Option (List (QueueSub α)) :=
  let subs1 := fanoutQueues r subs
  match (runCallbacks cbs r).2 with
  | some _ => none
  | none => some subs1

/-! ## Device bring-up (HCICore.bringHciDeviceUp) -/

/-- HCICore.bringHciDeviceUp. Returns the number of HCIDEVUP ioctls issued and
the boolean result. `osOk` is the outcome of the one ioctl when it is issued:
`true` means success, `false` means the OS reported an IOError. -/
def bringHciDeviceUp (dev_id : Int) (osOk : Bool) : Nat × Bool :=
  if dev_id < 0 ∨ dev_id > 16 then (0, false)
  else if osOk then (1, true) else (1, false)

/-! ## Helper lemmas -/

/-- Extending the fuel beyond the argument does not change `bitsAux`. -/
theorem bitsAux_fuel : ∀ f1 f2 n, n ≤ f1 → n ≤ f2 → bitsAux f1 n = bitsAux f2 n := by
  intro f1
  induction f1 with
  | zero =>
    intro f2 n h1 _
    interval_cases n
    cases f2 <;> rfl
  | succ k ih =>
    intro f2 n h1 h2
    by_cases hn : n = 0
    · subst hn
      cases f2 <;> rfl
    · obtain ⟨m, rfl⟩ : ∃ m, f2 = m + 1 := by
        cases f2 with
        | zero => omega
        | succ m => exact ⟨m, rfl⟩
      show bitsAux (k + 1) n = bitsAux (m + 1) n
      unfold bitsAux
      simp only [hn, if_false]
      have hhalf : n / 2 < n := Nat.div_lt_self (Nat.pos_of_ne_zero hn) (by decide)
      rw [ih m (n / 2) (by omega) (by omega)]

/-- Unfolding rule for `bitsLSB` on a positive argument. -/
theorem bitsLSB_pos {n : Nat} (hn : n ≠ 0) :
    bitsLSB n = decide (n % 2 = 1) :: bitsLSB (n / 2) := by
  obtain ⟨m, rfl⟩ : ∃ m, n = m + 1 := by
    cases n with
    | zero => omega
    | succ m => exact ⟨m, rfl⟩
  have h1 : bitsAux (m + 1) (m + 1)
      = decide ((m + 1) % 2 = 1) :: bitsAux m ((m + 1) / 2) := by
    rw [bitsAux, if_neg hn]
  show bitsAux (m + 1) (m + 1) = _
  rw [h1, bitsAux_fuel m ((m + 1) / 2) ((m + 1) / 2) (by omega) (by omega)]
  rfl

/-- Zipping the LSB-first binary digits of `n` against any token list selects
exactly the entries at set bit positions below the list length. -/
theorem zip_bits_filterMap (l : List String) : ∀ n : Nat,
    ((bitsLSB n).zip l).filterMap (fun p => if p.1 then some p.2 else none)
      = (List.range l.length).filterMap
          (fun i => if n.testBit i then some (l.getD i "") else none) := by
  induction l with
  | nil =>
    intro n
    simp
  | cons a l ih =>
    intro n
    by_cases hn : n = 0
    · subst hn
      show ((bitsLSB 0).zip (a :: l)).filterMap _ = _
      have h0 : bitsLSB 0 = [] := rfl
      rw [h0]
      simp [Nat.zero_testBit]
    · rw [bitsLSB_pos hn]
      rw [List.length_cons, List.range_succ_eq_map]
      rw [List.zip_cons_cons, List.filterMap_cons, List.filterMap_cons]
      rw [List.filterMap_map]
      have htail :
          (List.range l.length).filterMap
              ((fun i => if n.testBit i then some ((a :: l).getD i "") else none)
                ∘ Nat.succ)
            = (List.range l.length).filterMap
                (fun i => if (n / 2).testBit i then some (l.getD i "") else none) := by
        apply List.filterMap_congr
        intro i _
        simp only [Function.comp_apply, Nat.testBit_succ]
        rfl
      rw [htail, ← ih (n / 2)]
      by_cases hb : n % 2 = 1
      · simp [hb, Nat.testBit_zero]
      · simp [hb, Nat.testBit_zero]

/-- The source decoding agrees with the spec's subset description, with the
"DOWN" branch untouched. -/
theorem dev_flags_str_eq_spec (n : Nat) : dev_flags_str n = flags_text_spec n := by
  unfold dev_flags_str flags_text_spec
  by_cases hn : n = 0
  · simp [hn]
  · simp only [hn, if_false]
    rw [zip_bits_filterMap flagNames n]
    rfl

/-- The tokens depend only on the low 10 bits of the bitmap. -/
theorem flagsTokens_mod (n : Nat) : flagsTokens n = flagsTokens (n % 1024) := by
  unfold flagsTokens
  apply List.filterMap_congr
  intro i hi
  have hlt : i < 10 := List.mem_range.mp hi
  have : (n % 1024).testBit i = n.testBit i := by
    have h1024 : (1024 : Nat) = 2 ^ 10 := by decide
    rw [h1024, Nat.testBit_mod_two_pow]
    simp [hlt]
  rw [this]

/-- No bitmap below 1024 joins to the string "DOWN". -/
theorem no_token_join_is_down :
    ∀ m : Nat, m < 1024 → String.intercalate " " (flagsTokens m) ≠ "DOWN" := by
  decide

/-! ## Theorems -/

/-- C1 counterexample: the i64 timestamp written is not exactly the capture
microseconds plus the epoch constant — for a capture instant 1 microsecond
after the 2000 epoch, total_seconds()'s float64 division loses the low
microsecond (half an ulp at this magnitude is about 3.8 us), so the code
writes 0x00E03AB44A676000, not 0x00E03AB44A676000 + 1. -/
theorem c1_pack_time_lossy :
    btsnoop_pack_time 1 = 0x00E03AB44A676000
    ∧ btsnoop_pack_time 1 ≠ 1 + 0x00E03AB44A676000 :=
  ⟨by decide, by decide⟩

/-- C1 amended: every appended capture-log frame is the 24-byte big-endian
header — u32 original length, u32 captured length, u32 flags, u32 drop
count, then the i64 timestamp — followed immediately by the raw packet
bytes, and a record with both lengths 10, flags 0, drops 0 and a 10-byte
payload yields a 34-byte frame; the i64 timestamp is the float64 round-trip
int(total_seconds() * 1000 * 1000) of the exact microsecond count plus the
epoch constant, which reproduces the offset 0x00E03AB44A676000 exactly at
the epoch itself but may lose low-order microseconds elsewhere. -/
theorem c1_btsnoop_frame_layout (orig inc fl dr : Nat) (ts : Int) (d : List Nat) :
    (btsnoop_record_hdr orig inc fl dr ts).length = 24
    ∧ btsnoop_frame orig inc fl dr ts d = btsnoop_record_hdr orig inc fl dr ts ++ d
    ∧ btsnoop_record_hdr orig inc fl dr ts
        = p32be orig ++ p32be inc ++ p32be fl ++ p32be dr ++ p64be_int ts
    ∧ btsnoop_pack_time 0 = 0x00E03AB44A676000
    ∧ (btsnoop_frame orig inc fl dr ts d).length = 24 + d.length
    ∧ hci_btsnoop_write d ts
        = btsnoop_frame d.length d.length 0 0 (btsnoop_pack_time ts) d
    ∧ (d.length = 10 → (hci_btsnoop_write d ts).length = 34) := by
  refine ⟨rfl, rfl, rfl, by decide, ?_, rfl, ?_⟩
  · show (btsnoop_record_hdr orig inc fl dr ts ++ d).length = 24 + d.length
    rw [List.length_append]
    rfl
  · intro h10
    show (btsnoop_frame d.length d.length 0 0 (btsnoop_pack_time ts) d).length = 34
    show (btsnoop_record_hdr d.length d.length 0 0 (btsnoop_pack_time ts) ++ d).length = 34
    rw [List.length_append, h10]
    rfl

/-- Witness for C1 at a concrete 10-byte payload. -/
theorem c1_btsnoop_frame_layout_witness :
    (hci_btsnoop_write [0, 1, 2, 3, 4, 5, 6, 7, 8, 9] 0).length = 34 :=
  (c1_btsnoop_frame_layout 10 10 0 0 0 [0, 1, 2, 3, 4, 5, 6, 7, 8, 9]).2.2.2.2.2.2
    (by decide)

/-- C8: the 16-byte identification header is appended only when the file is
empty, so writing it twice leaves exactly one header: the second call is a
no-op on the non-empty file. -/
theorem c8_header_once (b : Bool) (f : List Nat) :
    (f.length ≠ 0 → writeBTSnoopHeader b f = f)
    ∧ writeBTSnoopHeader b (writeBTSnoopHeader b f) = writeBTSnoopHeader b f
    ∧ writeBTSnoopHeader true [] = btsnoop_hdr
    ∧ btsnoop_hdr.length = 16
    ∧ countHeaders (writeBTSnoopHeader true (writeBTSnoopHeader true [])) = 1 := by
  refine ⟨?_, ?_, rfl, rfl, by decide⟩
  · intro hne
    unfold writeBTSnoopHeader
    simp [hne]
  · unfold writeBTSnoopHeader
    by_cases hb : b = true
    · by_cases hf : f.length = 0
      · simp [hb, hf, btsnoop_hdr, p32be]
      · simp [hb, hf]
    · simp [hb]

/-- Witness for C8 at a concrete non-empty file. -/
theorem c8_header_once_witness :
    writeBTSnoopHeader true [5] = [5]
    ∧ countHeaders (writeBTSnoopHeader true (writeBTSnoopHeader true [])) = 1 :=
  ⟨(c8_header_once true [5]).1 (by decide), (c8_header_once true []).2.2.2.2⟩

/-- C9: device ids outside 0..16 are rejected without any HCIDEVUP ioctl and
the call returns failure; ids inside the range issue exactly one ioctl and
report the OS outcome without retry. -/
theorem c9_bring_up_validation (d : Int) (osOk : Bool) :
    ((d < 0 ∨ d > 16) → bringHciDeviceUp d osOk = (0, false))
    ∧ (0 ≤ d ∧ d ≤ 16 →
        (bringHciDeviceUp d osOk).1 = 1 ∧ (bringHciDeviceUp d osOk).2 = osOk) := by
  constructor
  · intro hout
    unfold bringHciDeviceUp
    simp [hout]
  · rintro ⟨h0, h16⟩
    have hnot : ¬(d < 0 ∨ d > 16) := by
      push_neg
      exact ⟨by omega, by omega⟩
    unfold bringHciDeviceUp
    cases osOk <;> simp [hnot]

/-- Witness for C9 at the spec's example inputs -1 and 17, and at 5. -/
theorem c9_bring_up_validation_witness :
    bringHciDeviceUp (-1) true = (0, false)
    ∧ bringHciDeviceUp 17 true = (0, false)
    ∧ (bringHciDeviceUp 5 false).1 = 1 ∧ (bringHciDeviceUp 5 false).2 = false :=
  ⟨(c9_bring_up_validation (-1) true).1 (by decide),
   (c9_bring_up_validation 17 true).1 (by decide),
   ((c9_bring_up_validation 5 false).2 (by constructor <;> decide)).1,
   ((c9_bring_up_validation 5 false).2 (by constructor <;> decide)).2⟩

/-- C2: for every flag bitmap the decoded flags text is "DOWN" exactly when
the bitmap is 0, and otherwise is the space-joined ordered subset of the
10-token table selected by the set bits of the bitmap, taken low bit first. -/
theorem c2_flags_text (n : Nat) :
    (dev_flags_str n = "DOWN" ↔ n = 0) ∧ dev_flags_str n = flags_text_spec n := by
  refine ⟨⟨?_, ?_⟩, dev_flags_str_eq_spec n⟩
  · intro hdown
    by_contra hn
    have h1 : dev_flags_str n = String.intercalate " " (flagsTokens n) := by
      rw [dev_flags_str_eq_spec n]
      unfold flags_text_spec
      rw [if_neg hn]
    rw [h1, flagsTokens_mod] at hdown
    exact no_token_join_is_down (n % 1024) (Nat.mod_lt n (by decide)) hdown
  · intro hn
    subst hn
    rfl

/-- C10: a non-zero bitmap whose set bits all lie at position 10 or higher
decodes to the empty string, since its binary digits are zipped against the
10-entry token table and excess bits are discarded. -/
theorem c10_flags_text_high_bits (n : Nat) (hn : n ≠ 0)
    (hhigh : ∀ i, i < 10 → n.testBit i = false) :
    dev_flags_str n = "" := by
  rw [dev_flags_str_eq_spec]
  unfold flags_text_spec
  rw [if_neg hn]
  have htok : flagsTokens n = [] := by
    unfold flagsTokens
    rw [List.filterMap_eq_nil_iff]
    intro i hi
    simp [hhigh i (List.mem_range.mp hi)]
  rw [htok]
  rfl

/-- Witness for C10 at the bitmap 0x400. -/
theorem c10_flags_text_high_bits_witness :
    (1024 : Nat) ≠ 0 ∧ dev_flags_str 1024 = "" :=
  ⟨by decide, c10_flags_text_high_bits 1024 (by decide) (by decide)⟩

/-- C3 evaluated at the failing input: macOSCore._recvThreadFunc enqueues the
record into a queue subscription whose filter rejects it (contradicting the
claim and the source's own comment), while HCICore's fan-out at the same
input leaves that queue empty. -/
theorem c3_macos_ignores_filter :
    ((macos_fanoutQueues (macos_mkRecord (fun d => d) [4, 14])
        [{ buf := [], cap := 1, filt := some (fun _ => false) }]).map
          (fun q => q.buf))
      = [[macos_mkRecord (fun d => d) [4, 14]]]
    ∧ ((fanoutQueues (macos_mkRecord (fun d => d) [4, 14])
        [{ buf := [], cap := 1, filt := some (fun _ => false) }]).map
          (fun q => q.buf))
      = [[]] :=
  ⟨rfl, rfl⟩

/-- C4 counterexample: with two registered callbacks of which the first
raises, only one of the two is invoked and the exception escapes the
unprotected loop, terminating the receive thread instead of being caught. -/
theorem c4_callback_crashes_loop :
    (runCallbacks
        [fun _ => some "boom", fun _ => none]
        (hci_mkRecord (fun d => d) [4, 14] 0)).1 = 1
    ∧ ([fun _ => some "boom", fun _ => none] :
        List (Record (List Nat) → Option String)).length = 2
    ∧ hci_recvStep [] [fun _ => some "boom", fun _ => none]
        (hci_mkRecord (fun d => d) [4, 14] 0) = none :=
  ⟨rfl, rfl, rfl⟩

/-- C4 amended: callbacks run in order with the record; when none raises they
are all invoked and the loop continues, but when one raises, exactly the
callbacks up to and including it have run and the exception propagates out of
the loop body, terminating the receive thread. -/
theorem c4_callbacks_amended {α : Type} (subs : List (QueueSub α))
    (cbs pre post : List (Record α → Option String))
    (c : Record α → Option String) (r : Record α) (e : String) :
    ((∀ k ∈ cbs, k r = none) →
      runCallbacks cbs r = (cbs.length, none)
      ∧ hci_recvStep subs cbs r = some (fanoutQueues r subs))
    ∧ ((∀ k ∈ pre, k r = none) → c r = some e →
      runCallbacks (pre ++ c :: post) r = (pre.length + 1, some e)
      ∧ hci_recvStep subs (pre ++ c :: post) r = none) := by
  have hall : ∀ (l : List (Record α → Option String)),
      (∀ k ∈ l, k r = none) → runCallbacks l r = (l.length, none) := by
    intro l
    induction l with
    | nil => intro _; rfl
    | cons a l ih =>
      intro h
      have ha : a r = none := h a (List.mem_cons_self a l)
      have hl := ih (fun k hk => h k (List.mem_cons_of_mem a hk))
      simp [runCallbacks, ha, hl]
  have hraise : ∀ (pre : List (Record α → Option String)),
      (∀ k ∈ pre, k r = none) → c r = some e →
      runCallbacks (pre ++ c :: post) r = (pre.length + 1, some e) := by
    intro pre
    induction pre with
    | nil =>
      intro _ hc
      simp [runCallbacks, hc]
    | cons a l ih =>
      intro h hc
      have ha : a r = none := h a (List.mem_cons_self a l)
      have hl := ih (fun k hk => h k (List.mem_cons_of_mem a hk)) hc
      simp [runCallbacks, ha, hl]
  constructor
  · intro h
    have h1 := hall cbs h
    exact ⟨h1, by simp [hci_recvStep, h1]⟩
  · intro h hc
    have h2 := hraise pre h hc
    exact ⟨h2, by simp [hci_recvStep, h2]⟩

/-- Witness for the amended C4 at concrete callback lists. -/
theorem c4_callbacks_amended_witness :
    runCallbacks [fun _ => (none : Option String)]
        (hci_mkRecord (fun d => d) [4, 14] 0) = (1, none)
    ∧ runCallbacks
        ([fun _ => none] ++ (fun _ => some "boom") :: [])
        (hci_mkRecord (fun d => d) [4, 14] 0) = (1 + 1, some "boom") := by
  have h := c4_callbacks_amended ([] : List (QueueSub (List Nat)))
    [fun _ => none] [fun _ => none] [] (fun _ => some "boom")
    (hci_mkRecord (fun d => d) [4, 14] 0) "boom"
  refine ⟨(h.1 ?_).1, (h.2 ?_ rfl).1⟩
  · intro k hk
    rw [List.mem_singleton] at hk
    subst hk
    rfl
  · intro k hk
    rw [List.mem_singleton] at hk
    subst hk
    rfl

/-- C5: a full queue drops the record for that subscription only — its
contents are unchanged (the non-blocking put's queue.Full is swallowed) —
and every other subscription whose filter is absent or accepts and whose
queue has room still receives the record at the tail. -/
theorem c5_backpressure {α : Type} (subs : List (QueueSub α)) (r : Record α)
    (i j : Nat) (dflt : QueueSub α) (hi : i < subs.length) (hj : j < subs.length) :
    ((subs.getD i dflt).cap ≤ (subs.getD i dflt).buf.length →
      ((fanoutQueues r subs).getD i dflt).buf = (subs.getD i dflt).buf)
    ∧ (((subs.getD j dflt).filt = none
          ∨ ∃ f, (subs.getD j dflt).filt = some f ∧ f r = true) →
        (subs.getD j dflt).buf.length < (subs.getD j dflt).cap →
        ((fanoutQueues r subs).getD j dflt).buf
          = (subs.getD j dflt).buf ++ [r]) := by
  have hmap : ∀ k, k < subs.length →
      (fanoutQueues r subs).getD k dflt = fanoutQueueStep r (subs.getD k dflt) := by
    intro k hk
    rw [List.getD_eq_getElem?_getD, List.getD_eq_getElem?_getD]
    unfold fanoutQueues
    rw [List.getElem?_map, List.getElem?_eq_getElem hk]
    rfl
  constructor
  · intro hfull
    rw [hmap i hi]
    revert hfull
    generalize subs.getD i dflt = q
    intro hfull
    have hnl : ¬(q.buf.length < q.cap) := Nat.not_lt.mpr hfull
    cases hq : q.filt with
    | none => simp [fanoutQueueStep, hq, tryPut, hnl]
    | some f =>
      cases hfr : f r with
      | false => simp [fanoutQueueStep, hq, hfr]
      | true => simp [fanoutQueueStep, hq, hfr, tryPut, hnl]
  · intro hacc hroom
    rw [hmap j hj]
    revert hacc hroom
    generalize subs.getD j dflt = q
    intro hacc hroom
    rcases hacc with hnone | ⟨f, hf, hfr⟩
    · simp [fanoutQueueStep, hnone, tryPut, hroom]
    · simp [fanoutQueueStep, hf, hfr, tryPut, hroom]

/-- Witness for C5: the first queue is full and keeps its contents, the
second still receives the record. -/
theorem c5_backpressure_witness :
    ((fanoutQueues (hci_mkRecord (fun d => d) [4, 14] 0)
        [{ buf := [hci_mkRecord (fun d => d) [7] 0], cap := 1, filt := none },
         { buf := [], cap := 1, filt := none }]).getD 0
        { buf := [], cap := 0, filt := none }).buf
      = [hci_mkRecord (fun d => d) [7] 0]
    ∧ ((fanoutQueues (hci_mkRecord (fun d => d) [4, 14] 0)
        [{ buf := [hci_mkRecord (fun d => d) [7] 0], cap := 1, filt := none },
         { buf := [], cap := 1, filt := none }]).getD 1
        { buf := [], cap := 0, filt := none }).buf
      = [] ++ [hci_mkRecord (fun d => d) [4, 14] 0] := by
  have h := c5_backpressure
    [{ buf := [hci_mkRecord (fun d => d) [7] 0], cap := 1, filt := none },
     { buf := [], cap := 1, filt := none }]
    (hci_mkRecord (fun d => d) [4, 14] 0) 0 1
    { buf := [], cap := 0, filt := none } (by decide) (by decide)
  exact ⟨h.1 (by decide), h.2 (Or.inl rfl) (by decide)⟩

/-- C6: a send whose reply never arrives returns the empty result rather than
an error, and the dispatch registry holds no residual single-use response
subscription afterwards: sendH4's task carries filter_function None so the
send thread registers nothing, and a filtered task that times out unregisters
the ephemeral slot it registered, restoring the registry. -/
theorem c6_send_timeout (reg : List Nat) (fresh : Nat)
    (arrival : Option (List Nat)) :
    sendH4 reg fresh arrival = (reg, none)
    ∧ (fresh ∉ reg → sendThreadStep reg fresh true none = (reg, none)) := by
  constructor
  · rfl
  · intro hfree
    have h1 : reg.filter (fun x => x != fresh) = reg :=
      List.filter_eq_self.mpr (fun a ha => by
        have hne : a ≠ fresh := fun heq => hfree (heq ▸ ha)
        simpa using hne)
    show (unregisterHciRecvQueue (registerHciRecvQueue reg fresh) fresh, none)
      = (reg, none)
    unfold unregisterHciRecvQueue registerHciRecvQueue
    rw [List.filter_append, h1]
    simp

/-- Witness for C6 at a concrete registry. -/
theorem c6_send_timeout_witness :
    sendH4 [7] 3 none = ([7], none)
    ∧ sendThreadStep [7] 3 true none = ([7], none) :=
  ⟨(c6_send_timeout [7] 3 none).1, (c6_send_timeout [7] 3 none).2 (by decide)⟩

/-- C7 counterexample: macOSCore._recvThreadFunc builds the record for a
non-empty 10-byte chunk with original_length 0, not the raw byte count. -/
theorem c7_macos_zero_lengths :
    (macos_mkRecord (fun d => d) [0, 1, 2, 3, 4, 5, 6, 7, 8, 9]).orig_len
      ≠ [0, 1, 2, 3, 4, 5, 6, 7, 8, 9].length := by
  decide

/-- C7 amended: HCICore's record for a non-empty chunk has original and
captured length equal to the raw byte count and flags and drop count 0, while
macOSCore's record has all four metadata fields (and the timestamp) equal to
0 regardless of the chunk. -/
theorem c7_record_construction {α : Type} (parse : List Nat → α)
    (d : List Nat) (now_us : Int) (hne : d ≠ []) :
    (hci_mkRecord parse d now_us).orig_len = d.length
    ∧ (hci_mkRecord parse d now_us).inc_len = d.length
    ∧ (hci_mkRecord parse d now_us).flags = 0
    ∧ (hci_mkRecord parse d now_us).drops = 0
    ∧ (macos_mkRecord parse d).orig_len = 0
    ∧ (macos_mkRecord parse d).inc_len = 0
    ∧ (macos_mkRecord parse d).flags = 0
    ∧ (macos_mkRecord parse d).drops = 0
    ∧ (macos_mkRecord parse d).timestamp = 0 :=
  ⟨rfl, rfl, rfl, rfl, rfl, rfl, rfl, rfl, rfl⟩

/-- Witness for the amended C7 at a concrete 3-byte chunk. -/
theorem c7_record_construction_witness :
    (hci_mkRecord (fun d => d) [1, 2, 3] 0).orig_len = 3
    ∧ (macos_mkRecord (fun d => d) [1, 2, 3]).orig_len = 0 :=
  ⟨(c7_record_construction (fun d => d) [1, 2, 3] 0 (by decide)).1,
   (c7_record_construction (fun d => d) [1, 2, 3] 0 (by decide)).2.2.2.2.1⟩

end InternalBlueSpec
